import Mathlib

/-!
Verification development for the Pest_finder repository (src/app.py).

The program is a single-file Flask application: a POST handler decodes a
base64 data URL, writes the bytes to a fixed path, runs EasyOCR over the
stored image, filters the recognized fragments by a confidence threshold,
joins the survivors with spaces, builds dynamic pydantic schemas, calls the
Gemini generative API, deletes the stored image and returns a JSON response.

External collaborators (the OCR engine `easyocr.Reader.readtext`, the base64
decoder `base64.b64decode`, and the Gemini network call
`model.generate_content`) are opaque services; they are modelled as oracle
functions carried in an `Env` record. Everything the repository itself
computes (filtering, joining, string splitting, dict building, control flow,
filesystem effects, HTTP responses) is embedded directly from src/app.py.

Confidence scores are floats only ever compared with the literal threshold
0.7; they are modelled as rationals, which preserves the ordering semantics
of every decimal literal.
-/

namespace PestFinder

/-- One OCR result triple from `reader.readtext`; the bounding box component
is never used by the program (`for _, text, confidence in results`), so only
text and confidence are modelled. -/
structure OcrFragment where
  text : String
  confidence : ℚ
deriving DecidableEq, Repr

/-- Embedding of `process_image` (src/app.py lines 17-36), with the external
`easyocr.Reader(lang_list).readtext(image_path)` call factored out: the
function takes the list of OCR result fragments that call returned. The
source default `confidence_threshold=0.7` is passed explicitly as `7/10` at
the single call site.

Source:
  `extracted_texts = [text for _, text, confidence in results if confidence >= confidence_threshold]`
  `return " ".join(extracted_texts)` -/
def process_image (results : List OcrFragment) (confidence_threshold : ℚ) : String :=
  let extracted_texts :=
    (results.filter (fun r => r.confidence ≥ confidence_threshold)).map (fun r => r.text)
  String.intercalate " " extracted_texts

/-- The list of fragments that `process_image` retains at threshold `t`:
exactly the filter appearing in the list comprehension on line 32. -/
def retainedFragments (results : List OcrFragment) (t : ℚ) : List OcrFragment :=
  results.filter (fun r => r.confidence ≥ t)

/-- Spec-side description of extraction, written from the spec's words
("the space-joined concatenation of fragments whose confidence ≥ threshold,
in the order returned by the OCR engine"): walk the fragments in order,
keep the text of each fragment at or above the threshold, drop the rest,
and join with single spaces. -/
def extractedTextSpec (results : List OcrFragment) (t : ℚ) : String :=
  String.intercalate " "
    (results.filterMap (fun r => if r.confidence ≥ t then some r.text else none))

theorem filterMap_if_eq_map_filter (results : List OcrFragment) (t : ℚ) :
    (results.filterMap (fun r => if r.confidence ≥ t then some r.text else none))
      = (results.filter (fun r => r.confidence ≥ t)).map (fun r => r.text) := by
  induction results with
  | nil => rfl
  | cons r rest ih =>
    by_cases h : r.confidence ≥ t <;>
      simp [List.filterMap_cons, List.filter_cons, h, ih]

/-- C1: for every list of OCR fragments and every threshold, `process_image`
returns exactly the texts of the fragments whose confidence is ≥ t, in the
order the OCR engine returned them, joined by single spaces; fragments below
t contribute nothing. -/
theorem process_image_eq_spec (results : List OcrFragment) (t : ℚ) :
    process_image results t = extractedTextSpec results t := by
  simp [process_image, extractedTextSpec, filterMap_if_eq_map_filter]

/-- C6: raising the threshold is monotone; for t1 ≤ t2 the fragments retained
at threshold t2 form a sublist (hence a subset) of those retained at t1. -/
theorem retainedFragments_monotone (results : List OcrFragment) (t1 t2 : ℚ)
    (h : t1 ≤ t2) :
    (retainedFragments results t2).Sublist (retainedFragments results t1)
      ∧ ∀ f ∈ retainedFragments results t2, f ∈ retainedFragments results t1 := by
  have hsub : (retainedFragments results t2).Sublist (retainedFragments results t1) := by
    unfold retainedFragments
    induction results with
    | nil => simp
    | cons r rest ih =>
      by_cases h2 : r.confidence ≥ t2
      · have h1 : r.confidence ≥ t1 := le_trans h h2
        simpa [List.filter_cons, h1, h2] using ih.cons₂ r
      · by_cases h1 : r.confidence ≥ t1
        · simpa [List.filter_cons, h1, h2] using ih.cons r
        · simpa [List.filter_cons, h1, h2] using ih
  exact ⟨hsub, fun f hf => hsub.mem hf⟩

/-- Witness for C6 at a concrete fragment list and thresholds 1/2 ≤ 3/4. -/
theorem retainedFragments_monotone_witness :
    (retainedFragments
        [⟨"a", 9/10⟩, ⟨"b", 6/10⟩, ⟨"c", 3/4⟩] (3/4)).Sublist
      (retainedFragments
        [⟨"a", 9/10⟩, ⟨"b", 6/10⟩, ⟨"c", 3/4⟩] (1/2))
      ∧ ∀ f ∈ retainedFragments [⟨"a", 9/10⟩, ⟨"b", 6/10⟩, ⟨"c", 3/4⟩] (3/4),
          f ∈ retainedFragments [⟨"a", 9/10⟩, ⟨"b", 6/10⟩, ⟨"c", 3/4⟩] (1/2) :=
  retainedFragments_monotone [⟨"a", 9/10⟩, ⟨"b", 6/10⟩, ⟨"c", 3/4⟩] (1/2) (3/4)
    (by norm_num)

mutual

/-- Type annotations occurring in the pydantic models the program builds:
`str`, `List[...]`, or a reference to a previously built model class. -/
inductive PydTy where
  | str : PydTy
  | listOf : PydTy → PydTy
  | modelRef : PydModel → PydTy

/-- A pydantic model produced by `create_model(name, **field_definitions)`:
a class name together with an ordered field dictionary mapping each field
name to its type annotation and whether it is required (Python `...`
(Ellipsis) as the default marks the field required). -/
inductive PydModel where
  | mk : String → List (String × PydTy × Bool) → PydModel

end

/-- The field dictionary of a built model. -/
def PydModel.fields : PydModel → List (String × PydTy × Bool)
  | .mk _ fs => fs

/-- The class name of a built model. -/
def PydModel.modelName : PydModel → String
  | .mk n _ => n

/-- Insertion of one key into an ordered Python dict (association list):
if the key is present its value is replaced in place, otherwise the pair is
appended. -/
def pyDictInsert (d : List (String × α)) (k : String) (v : α) : List (String × α) :=
  if k ∈ d.map Prod.fst then d.map (fun p => if p.1 = k then (k, v) else p)
  else d ++ [(k, v)]

/-- Python dict construction from an ordered list of key-value pairs (the
semantics of a dict comprehension: first occurrence fixes the position,
last occurrence fixes the value). -/
def pyDict (l : List (String × α)) : List (String × α) :=
  l.foldl (fun d p => pyDictInsert d p.1 p.2) []

/-- Embedding of pydantic's `create_model(name, **field_definitions)`: the
keyword-argument dict is already deduplicated, so the model just records it. -/
def create_model (name : String) (field_definitions : List (String × PydTy × Bool)) :
    PydModel :=
  PydModel.mk name field_definitions

/-- Embedding of `create_dynamic_listing_model` (src/app.py lines 39-48):
`field_definitions = {field: (str, ...) for field in field_names}` then
`create_model("DynamicListingModel", **field_definitions)`. -/
def create_dynamic_listing_model (field_names : List String) : PydModel :=
  let field_definitions := pyDict (field_names.map (fun f => (f, PydTy.str, true)))
  create_model "DynamicListingModel" field_definitions

/-- Embedding of `create_listings_container_model` (src/app.py lines 51-59):
`create_model("DynamicListingsContainer", listings=(List[listing_model], ...))`. -/
def create_listings_container_model (listing_model : PydModel) : PydModel :=
  create_model "DynamicListingsContainer"
    (pyDict [("listings", PydTy.listOf (PydTy.modelRef listing_model), true)])

/-- First-occurrence deduplication of a key list, matching the key order of a
Python dict built from those keys. -/
def firstDedup (l : List String) : List String :=
  l.foldl (fun acc n => if n ∈ acc then acc else acc ++ [n]) []

theorem firstDedup_go_mem (l : List String) (acc : List String) (x : String) :
    x ∈ l.foldl (fun acc n => if n ∈ acc then acc else acc ++ [n]) acc
      ↔ x ∈ acc ∨ x ∈ l := by
  induction l generalizing acc with
  | nil => simp
  | cons n rest ih =>
    by_cases hn : n ∈ acc
    · simp only [List.foldl_cons, if_pos hn, ih, List.mem_cons]
      constructor
      · rintro (h | h)
        · exact Or.inl h
        · exact Or.inr (Or.inr h)
      · rintro (h | h | h)
        · exact Or.inl h
        · exact Or.inl (h ▸ hn)
        · exact Or.inr h
    · simp only [List.foldl_cons, if_neg hn, ih, List.mem_append, List.mem_cons,
        List.mem_singleton]
      tauto

theorem firstDedup_go_nodup (l : List String) (acc : List String)
    (hacc : acc.Nodup) :
    (l.foldl (fun acc n => if n ∈ acc then acc else acc ++ [n]) acc).Nodup := by
  induction l generalizing acc with
  | nil => simpa using hacc
  | cons n rest ih =>
    by_cases hn : n ∈ acc
    · simpa [List.foldl_cons, if_pos hn] using ih acc hacc
    · refine ?_
      have : (acc ++ [n]).Nodup := by
        simp [List.nodup_append, hacc, hn]
      simpa [List.foldl_cons, if_neg hn] using ih (acc ++ [n]) this

theorem firstDedup_mem (l : List String) (x : String) :
    x ∈ firstDedup l ↔ x ∈ l := by
  simpa using firstDedup_go_mem l [] x

theorem firstDedup_nodup (l : List String) : (firstDedup l).Nodup :=
  firstDedup_go_nodup l [] List.nodup_nil

theorem pyDictInsert_const {α : Type} (d : List (String × α)) (k : String) (v : α)
    (hd : ∀ p ∈ d, p.2 = v) :
    pyDictInsert d k v = if k ∈ d.map Prod.fst then d else d ++ [(k, v)] := by
  unfold pyDictInsert
  by_cases hk : k ∈ d.map Prod.fst
  · simp only [if_pos hk]
    have hpt : ∀ p ∈ d, (if p.1 = k then (k, v) else p) = id p := by
      intro p hp
      rcases p with ⟨a, b⟩
      by_cases h : a = k
      · have hb : b = v := hd ⟨a, b⟩ hp
        simp [h, hb]
      · simp [h]
    rw [List.map_congr_left hpt, List.map_id]
  · simp [if_neg hk]

theorem pyDict_const_go {α : Type} (names : List String) (acc : List String) (v : α) :
    (names.map (fun f => (f, v))).foldl (fun d p => pyDictInsert d p.1 p.2)
        (acc.map (fun f => (f, v)))
      = (names.foldl (fun a n => if n ∈ a then a else a ++ [n]) acc).map
          (fun f => (f, v)) := by
  induction names generalizing acc with
  | nil => simp
  | cons n rest ih =>
    have hvals : ∀ p ∈ acc.map (fun f => (f, v)), p.2 = v := by
      intro p hp
      rcases List.mem_map.mp hp with ⟨f, _, rfl⟩
      rfl
    have hkeys : (acc.map (fun f => (f, v))).map Prod.fst = acc := by
      simp [List.map_map, Function.comp_def]
    by_cases hn : n ∈ acc
    · have : pyDictInsert (acc.map (fun f => (f, v))) n v = acc.map (fun f => (f, v)) := by
        rw [pyDictInsert_const _ _ _ hvals, hkeys, if_pos hn]
      simp only [List.map_cons, List.foldl_cons, this, if_pos hn]
      exact ih acc
    · have : pyDictInsert (acc.map (fun f => (f, v))) n v
          = (acc ++ [n]).map (fun f => (f, v)) := by
        rw [pyDictInsert_const _ _ _ hvals, hkeys, if_neg hn]
        simp
      simp only [List.map_cons, List.foldl_cons, this, if_neg hn]
      exact ih (acc ++ [n])

/-- The field dictionary built from a constant-valued comprehension is the
first-occurrence deduplication of the key list, each key paired with the
constant value. -/
theorem pyDict_const {α : Type} (names : List String) (v : α) :
    pyDict (names.map (fun f => (f, v)))
      = (firstDedup names).map (fun f => (f, v)) := by
  simpa [pyDict, firstDedup] using pyDict_const_go names [] v

theorem nodup_keys_filter_length {α : Type} (d : List (String × α)) (k : String)
    (hnd : (d.map Prod.fst).Nodup) (hk : k ∈ d.map Prod.fst) :
    (d.filter (fun p => p.1 = k)).length = 1 := by
  induction d with
  | nil => simp at hk
  | cons p rest ih =>
    simp only [List.map_cons, List.nodup_cons] at hnd
    by_cases h : p.1 = k
    · have hnot : rest.filter (fun q => q.1 = k) = [] := by
        apply List.filter_eq_nil_iff.mpr
        intro q hq
        simp only [decide_eq_true_eq]
        intro hqk
        exact hnd.1 (h ▸ hqk ▸ List.mem_map_of_mem Prod.fst hq)
      simp [List.filter_cons, h, hnot]
    · have hk' : k ∈ rest.map Prod.fst := by
        rcases List.mem_cons.mp hk with h1 | h1
        · exact absurd h1.symm h
        · exact h1
      simpa [List.filter_cons, h] using ih hnd.2 hk'

/-- C5: for every non-empty ordered field-name sequence, the record schema
built by `create_dynamic_listing_model` has exactly one field per name from
the sequence, every field is a required `str` leaf named by the sequence,
and `create_listings_container_model` wraps it in a container whose single
required field `listings` has type list-of-that-record-schema. -/
theorem schema_builder_correct (field_names : List String) (hne : field_names ≠ []) :
    (∀ n ∈ field_names,
        ((create_dynamic_listing_model field_names).fields.filter
          (fun p => p.1 = n)).length = 1)
      ∧ (∀ p ∈ (create_dynamic_listing_model field_names).fields,
          p.1 ∈ field_names ∧ p.2 = (PydTy.str, true))
      ∧ (create_dynamic_listing_model field_names).fields ≠ []
      ∧ (create_listings_container_model (create_dynamic_listing_model field_names)).fields
          = [("listings",
              PydTy.listOf (PydTy.modelRef (create_dynamic_listing_model field_names)),
              true)] := by
  have hfields : (create_dynamic_listing_model field_names).fields
      = (firstDedup field_names).map (fun f => (f, PydTy.str, true)) := by
    simp [create_dynamic_listing_model, create_model, PydModel.fields,
      pyDict_const field_names (PydTy.str, true)]
  refine ⟨?_, ?_, ?_, ?_⟩
  · intro n hn
    rw [hfields]
    apply nodup_keys_filter_length
    · have : ((firstDedup field_names).map (fun f => (f, PydTy.str, true))).map Prod.fst
          = firstDedup field_names := by simp [List.map_map, Function.comp_def]
      rw [this]
      exact firstDedup_nodup field_names
    · simp only [List.map_map]
      simpa [Function.comp] using (firstDedup_mem field_names n).mpr hn
  · intro p hp
    rw [hfields] at hp
    rcases List.mem_map.mp hp with ⟨f, hf, rfl⟩
    exact ⟨(firstDedup_mem field_names f).mp hf, rfl⟩
  · rw [hfields]
    intro hcontra
    rcases List.exists_mem_of_ne_nil field_names hne with ⟨n, hn⟩
    have hmem : n ∈ firstDedup field_names := (firstDedup_mem field_names n).mpr hn
    rw [List.map_eq_nil_iff.mp hcontra] at hmem
    simp at hmem
  · rfl

/-- Witness for C5 at the concrete field list the handler uses. -/
theorem schema_builder_correct_witness :
    (∀ n ∈ ["Product Name", "Description", "Usage Instructions"],
        ((create_dynamic_listing_model
            ["Product Name", "Description", "Usage Instructions"]).fields.filter
          (fun p => p.1 = n)).length = 1)
      ∧ (∀ p ∈ (create_dynamic_listing_model
            ["Product Name", "Description", "Usage Instructions"]).fields,
          p.1 ∈ ["Product Name", "Description", "Usage Instructions"]
            ∧ p.2 = (PydTy.str, true))
      ∧ (create_dynamic_listing_model
            ["Product Name", "Description", "Usage Instructions"]).fields ≠ []
      ∧ (create_listings_container_model (create_dynamic_listing_model
            ["Product Name", "Description", "Usage Instructions"])).fields
          = [("listings",
              PydTy.listOf (PydTy.modelRef (create_dynamic_listing_model
                ["Product Name", "Description", "Usage Instructions"])),
              true)] :=
  schema_builder_correct ["Product Name", "Description", "Usage Instructions"]
    (by simp)

/-- One content part of a Gemini response candidate. -/
structure GenPart where
  text : String
deriving DecidableEq, Repr

/-- The content of one Gemini response candidate. -/
structure GenContent where
  parts : List GenPart
deriving DecidableEq, Repr

/-- One candidate of a Gemini response. -/
structure GenCandidate where
  content : GenContent
deriving DecidableEq, Repr

/-- A Gemini response object as inspected by the program: its Python
truthiness (`if response and ...`) and its candidate list. -/
structure GenResponse where
  truthy : Bool
  candidates : List GenCandidate
deriving DecidableEq, Repr

/-- Outcome of the external hosted-model call (`genai.GenerativeModel(...)`,
`model.generate_content(prompt)` and the attribute accesses inside the
`try` block): either some exception is raised, or a response object is
returned. -/
inductive ApiCall where
  | raises : ApiCall
  | returns : GenResponse → ApiCall

/-- Oracles for the three external collaborators of the program. -/
structure Env where
  b64 : String → List Nat
  readtext : List Nat → List OcrFragment
  geminiApi : String → PydModel → ApiCall

/-- Embedding of `gemini_generate_response` (src/app.py lines 62-85): the
whole body is wrapped in `try/except Exception` returning `None`; on a
response, `if response and response.candidates and
response.candidates[0].content.parts:` guards
`return response.candidates[0].content.parts[0].text`, and falling through
the `if` returns Python's implicit `None`. -/
def gemini_generate_response (env : Env) (prompt : String)
    (container_model : PydModel) : Option String :=
  match env.geminiApi prompt container_model with
  | .raises => none
  | .returns r =>
    if r.truthy then
      match r.candidates with
      | [] => none
      | c0 :: _ =>
        match c0.content.parts with
        | [] => none
        | p0 :: _ => some p0.text
    else none

/-- A Gemini call outcome that yields no usable content: the call raises, or
the response is falsy, or it has no candidates, or the first candidate has
no content parts. -/
def geminiCallFails (env : Env) (prompt : String) (container_model : PydModel) : Prop :=
  env.geminiApi prompt container_model = ApiCall.raises
    ∨ ∃ r, env.geminiApi prompt container_model = ApiCall.returns r
        ∧ (r.truthy = false ∨ r.candidates = []
            ∨ ∃ c0 rest, r.candidates = c0 :: rest ∧ c0.content.parts = [])

theorem gemini_eq_none_of_fail (env : Env) (prompt : String)
    (container_model : PydModel) (h : geminiCallFails env prompt container_model) :
    gemini_generate_response env prompt container_model = none := by
  unfold gemini_generate_response
  rcases h with h | ⟨r, hr, hfail⟩
  · rw [h]
  · rw [hr]
    rcases hfail with ht | hc | ⟨c0, rest, hc, hp⟩
    · simp [ht]
    · simp [hc]
    · by_cases htr : r.truthy <;> simp [htr, hc, hp]

/-- C9: `gemini_generate_response` is a total function into an optional
string — no exception of the hosted-model call propagates: every failing
or contentless outcome yields `none`, and a truthy response with candidates
and content parts yields the text of the first part of the first candidate. -/
theorem gemini_generate_response_total (env : Env) (prompt : String)
    (container_model : PydModel) :
    (geminiCallFails env prompt container_model
        → gemini_generate_response env prompt container_model = none)
      ∧ (∀ r c0 cs p0 ps,
          env.geminiApi prompt container_model = ApiCall.returns r
            → r.truthy = true
            → r.candidates = c0 :: cs
            → c0.content.parts = p0 :: ps
            → gemini_generate_response env prompt container_model = some p0.text)
      ∧ ((gemini_generate_response env prompt container_model).isSome
          → ∃ r c0 cs p0 ps,
              env.geminiApi prompt container_model = ApiCall.returns r
                ∧ r.truthy = true ∧ r.candidates = c0 :: cs
                ∧ c0.content.parts = p0 :: ps
                ∧ gemini_generate_response env prompt container_model = some p0.text) := by
  refine ⟨gemini_eq_none_of_fail env prompt container_model, ?_, ?_⟩
  · intro r c0 cs p0 ps hr htr hc hp
    unfold gemini_generate_response
    rw [hr]
    simp [htr, hc, hp]
  · intro hsome
    rcases hapi : env.geminiApi prompt container_model with _ | r
    · exfalso
      unfold gemini_generate_response at hsome
      rw [hapi] at hsome
      simp at hsome
    · by_cases htr : r.truthy
      · rcases hc : r.candidates with _ | ⟨c0, cs⟩
        · exfalso
          unfold gemini_generate_response at hsome
          rw [hapi] at hsome
          simp [htr, hc] at hsome
        · rcases hp : c0.content.parts with _ | ⟨p0, ps⟩
          · exfalso
            unfold gemini_generate_response at hsome
            rw [hapi] at hsome
            simp [htr, hc, hp] at hsome
          · refine ⟨r, c0, cs, p0, ps, rfl, htr, hc, hp, ?_⟩
            unfold gemini_generate_response
            rw [hapi]
            simp [htr, hc, hp]
      · exfalso
        unfold gemini_generate_response at hsome
        rw [hapi] at hsome
        rw [Bool.not_eq_true] at htr
        simp [htr] at hsome

/-- Witness for C9: a raising call yields `none`, and a concrete successful
response yields the first part's text. -/
theorem gemini_generate_response_total_witness :
    gemini_generate_response
        ⟨fun _ => [], fun _ => [], fun _ _ => ApiCall.raises⟩ "p"
        (create_listings_container_model (create_dynamic_listing_model ["a"])) = none :=
  (gemini_generate_response_total
      ⟨fun _ => [], fun _ => [], fun _ _ => ApiCall.raises⟩ "p"
      (create_listings_container_model (create_dynamic_listing_model ["a"]))).1
    (Or.inl rfl)

/-- Python's `s.split(sep)` for a one-character separator, over the character
list of the string: `"".split(',') = ['']`, splitting at every occurrence. -/
def splitOnChar (c : Char) : List Char → List (List Char)
  | [] => [[]]
  | x :: xs =>
    if x = c then [] :: splitOnChar c xs
    else
      match splitOnChar c xs with
      | [] => [[x]]
      | y :: ys => (x :: y) :: ys

/-- Filesystem and network effects the handler performs, in program order. -/
inductive Effect where
  | fsWrite : String → List Nat → Effect
  | fsRemove : String → Effect
  | geminiCall : String → Effect
deriving DecidableEq, Repr

/-- An uncaught Python exception escaping the handler. -/
inductive PyExn where
  | indexError : PyExn
deriving DecidableEq, Repr

/-- The body of an HTTP response the handler returns. -/
inductive Body where
  | errorMsg : String → Body
  | result : String → Option String → Body
  | html : Body
deriving DecidableEq, Repr

/-- An HTTP response: status code and JSON (or template) body. -/
structure HttpResponse where
  status : Nat
  body : Body
deriving DecidableEq, Repr

/-- The HTTP method of a request to `/`. -/
inductive Method where
  | get : Method
  | post : Method
deriving DecidableEq, Repr

/-- The fixed stored-image path:
`os.path.join(app.config['UPLOAD_FOLDER'], 'captured_image.jpg')` with
`UPLOAD_FOLDER = 'uploaded_images'`. -/
def image_path : String := "uploaded_images/captured_image.jpg"

/-- The hardcoded field list of the handler (src/app.py line 113). -/
def fields : List String := ["Product Name", "Description", "Usage Instructions"]

/-- The fixed instructional preamble (src/app.py lines 120-124; adjacent
Python string literals concatenate). -/
def system_message : String :=
  "Act as an agriculture expert. Provide all details about the product including its uses, chemical composition, and benefits. Here is the product information: "

/-- Continuation of the handler after `data_url.split(',')[1]` succeeded:
decode, write the stored image, OCR, and either fail with 400 or build the
prompt, call Gemini, remove the stored image and return 200
(src/app.py lines 101-133). The first component collects the filesystem and
network effects in program order. -/
def afterDecode (env : Env) (payloadChars : List Char) :
    List Effect × Except PyExn HttpResponse :=
  let payload := String.mk payloadChars
  let image_data := env.b64 payload
  let extracted_text := process_image (env.readtext image_data) (7/10)
  if extracted_text = "" then
    ([Effect.fsWrite image_path image_data],
     Except.ok ⟨400, Body.errorMsg "No text extracted from the image"⟩)
  else
    let listing_model := create_dynamic_listing_model fields
    let container_model := create_listings_container_model listing_model
    let prompt := system_message ++ extracted_text
    let response := gemini_generate_response env prompt container_model
    ([Effect.fsWrite image_path image_data,
      Effect.geminiCall prompt,
      Effect.fsRemove image_path],
     Except.ok ⟨200, Body.result extracted_text response⟩)

/-- Embedding of the route handler `index` (src/app.py lines 88-136).
`image?` is `request.json.get('image')`: `none` when the `image` key is
absent or its JSON value is null; Python's `if not data_url` is also true
for the empty string. `data_url.split(',')[1]` raises `IndexError` when the
split produces fewer than two parts. -/
def index (env : Env) (method : Method) (image? : Option String) :
    List Effect × Except PyExn HttpResponse :=
  match method with
  | .get => ([], Except.ok ⟨200, Body.html⟩)
  | .post =>
    match image? with
    | none => ([], Except.ok ⟨400, Body.errorMsg "No image data provided"⟩)
    | some data_url =>
      if data_url = "" then
        ([], Except.ok ⟨400, Body.errorMsg "No image data provided"⟩)
      else
        match splitOnChar ',' data_url.data with
        | _ :: payloadChars :: _ => afterDecode env payloadChars
        | _ => ([], Except.error PyExn.indexError)

theorem splitOnChar_of_not_mem (c : Char) (l : List Char) (h : c ∉ l) :
    splitOnChar c l = [l] := by
  induction l with
  | nil => rfl
  | cons x xs ih =>
    have hx : x ≠ c := fun hxc => h (hxc ▸ List.mem_cons_self x xs)
    have hxs : c ∉ xs := fun hm => h (List.mem_cons_of_mem x hm)
    rw [splitOnChar, if_neg hx, ih hxs]

theorem splitOnChar_append (c : Char) (p q : List Char) (hp : c ∉ p) :
    splitOnChar c (p ++ c :: q) = p :: splitOnChar c q := by
  induction p with
  | nil => simp [splitOnChar]
  | cons x xs ih =>
    have hx : x ≠ c := fun hxc => hp (hxc ▸ List.mem_cons_self x xs)
    have hxs : c ∉ xs := fun hm => hp (List.mem_cons_of_mem x hm)
    rw [List.cons_append, splitOnChar, if_neg hx, ih hxs]

theorem String.mk_data (s : String) : String.mk s.data = s := by
  cases s
  rfl

theorem string_eq_empty_iff_data (s : String) : s = "" ↔ s.data = [] := by
  constructor
  · intro h
    rw [h]
  · intro h
    cases s
    simp only [String.data] at h
    rw [h]

theorem index_post_split (env : Env) (s : String) (a pd : List Char)
    (rest : List (List Char)) (hs : s ≠ "")
    (hsplit : splitOnChar ',' s.data = a :: pd :: rest) :
    index env Method.post (some s) = afterDecode env pd := by
  simp only [index]
  rw [if_neg hs, hsplit]

theorem afterDecode_write_head (env : Env) (pd : List Char) :
    (afterDecode env pd).1.head?
        = some (Effect.fsWrite image_path (env.b64 (String.mk pd)))
      ∧ ∀ d, Effect.fsWrite image_path d ∈ (afterDecode env pd).1
          → d = env.b64 (String.mk pd) := by
  by_cases h : process_image (env.readtext (env.b64 (String.mk pd))) (7/10) = ""
  · constructor
    · simp [afterDecode, h]
    · intro d hd
      simp [afterDecode, h] at hd
      exact hd
  · constructor
    · simp [afterDecode, h]
    · intro d hd
      simp [afterDecode, h] at hd
      exact hd

/-- C2: a POST whose body has no `image` key (or whose `image` value is JSON
null — `request.json.get('image')` returns `None` in both cases) yields
HTTP 400 with body `{"error": "No image data provided"}` and an empty effect
trace: no filesystem write happens. -/
theorem no_image_400 (env : Env) :
    index env Method.post none
      = ([], Except.ok ⟨400, Body.errorMsg "No image data provided"⟩) := rfl

/-- C3: when extraction yields the empty string, the handler responds
HTTP 400 with body `{"error": "No text extracted from the image"}`, the only
effect is the stored-image write, and in particular the generative adapter is
never called. -/
theorem no_text_400 (env : Env) (s : String) (a pd : List Char)
    (rest : List (List Char)) (hs : s ≠ "")
    (hsplit : splitOnChar ',' s.data = a :: pd :: rest)
    (hempty : process_image (env.readtext (env.b64 (String.mk pd))) (7/10) = "") :
    index env Method.post (some s)
        = ([Effect.fsWrite image_path (env.b64 (String.mk pd))],
           Except.ok ⟨400, Body.errorMsg "No text extracted from the image"⟩)
      ∧ ∀ p, Effect.geminiCall p ∉ (index env Method.post (some s)).1 := by
  have hred := index_post_split env s a pd rest hs hsplit
  constructor
  · rw [hred]
    simp [afterDecode, hempty]
  · intro p
    rw [hred]
    simp [afterDecode, hempty]

/-- Witness for C3: empty OCR output on a concrete request. -/
theorem no_text_400_witness :
    index ⟨fun _ => [], fun _ => [], fun _ _ => ApiCall.raises⟩ Method.post (some "x,y")
        = ([Effect.fsWrite image_path
              ((⟨fun _ => [], fun _ => [], fun _ _ => ApiCall.raises⟩ : Env).b64
                (String.mk ['y']))],
           Except.ok ⟨400, Body.errorMsg "No text extracted from the image"⟩)
      ∧ ∀ p, Effect.geminiCall p
          ∉ (index ⟨fun _ => [], fun _ => [], fun _ _ => ApiCall.raises⟩
              Method.post (some "x,y")).1 :=
  no_text_400 ⟨fun _ => [], fun _ => [], fun _ _ => ApiCall.raises⟩ "x,y"
    ['x'] ['y'] [] (by decide) (by decide) rfl

/-- C4: when the request reaches the generative step and the hosted-model
call raises or yields no usable content, the handler still returns HTTP 200
with `gemini_response` equal to null and `extracted_text` equal to the OCR
result; the failure is never mapped to an HTTP error status. -/
theorem generation_failure_200 (env : Env) (s : String) (a pd : List Char)
    (rest : List (List Char)) (hs : s ≠ "")
    (hsplit : splitOnChar ',' s.data = a :: pd :: rest)
    (hnonempty : process_image (env.readtext (env.b64 (String.mk pd))) (7/10) ≠ "")
    (hfail : geminiCallFails env
        (system_message ++ process_image (env.readtext (env.b64 (String.mk pd))) (7/10))
        (create_listings_container_model (create_dynamic_listing_model fields))) :
    index env Method.post (some s)
      = ([Effect.fsWrite image_path (env.b64 (String.mk pd)),
          Effect.geminiCall
            (system_message
              ++ process_image (env.readtext (env.b64 (String.mk pd))) (7/10)),
          Effect.fsRemove image_path],
         Except.ok ⟨200,
           Body.result
             (process_image (env.readtext (env.b64 (String.mk pd))) (7/10))
             none⟩) := by
  rw [index_post_split env s a pd rest hs hsplit]
  simp only [afterDecode, if_neg hnonempty]
  rw [gemini_eq_none_of_fail _ _ _ hfail]

/-- Witness for C4: a raising Gemini call on a request whose OCR output is
nonempty still produces a 200 response with a null generative field. -/
theorem generation_failure_200_witness :
    index ⟨fun _ => [], fun _ => [⟨"hello", 9/10⟩], fun _ _ => ApiCall.raises⟩
        Method.post (some "x,y")
      = ([Effect.fsWrite image_path
            ((⟨fun _ => [], fun _ => [⟨"hello", 9/10⟩], fun _ _ => ApiCall.raises⟩ :
                Env).b64 (String.mk ['y'])),
          Effect.geminiCall
            (system_message
              ++ process_image
                  ((⟨fun _ => [], fun _ => [⟨"hello", 9/10⟩],
                      fun _ _ => ApiCall.raises⟩ : Env).readtext
                    ((⟨fun _ => [], fun _ => [⟨"hello", 9/10⟩],
                        fun _ _ => ApiCall.raises⟩ : Env).b64 (String.mk ['y'])))
                  (7/10)),
          Effect.fsRemove image_path],
         Except.ok ⟨200,
           Body.result
             (process_image
               ((⟨fun _ => [], fun _ => [⟨"hello", 9/10⟩],
                   fun _ _ => ApiCall.raises⟩ : Env).readtext
                 ((⟨fun _ => [], fun _ => [⟨"hello", 9/10⟩],
                     fun _ _ => ApiCall.raises⟩ : Env).b64 (String.mk ['y'])))
               (7/10))
             none⟩) :=
  generation_failure_200
    ⟨fun _ => [], fun _ => [⟨"hello", 9/10⟩], fun _ _ => ApiCall.raises⟩ "x,y"
    ['x'] ['y'] [] (by decide) (by decide)
    (by
      show process_image [(⟨"hello", 9/10⟩ : OcrFragment)] (7/10) ≠ ""
      rw [show process_image [(⟨"hello", 9/10⟩ : OcrFragment)] (7/10) = "hello" from by
        norm_num [process_image]
        rfl]
      decide)
    (Or.inl rfl)

/-- C7: for a data-URL-formatted `image` value (whose base64 payload, like
every base64 string, contains no comma), the bytes written to the stored
image file are exactly the decoding of the segment after the first comma:
the first effect is that write, and every stored-image write carries those
bytes. -/
theorem decode_segment_after_comma (env : Env) (pre payload : String)
    (hpre : ',' ∉ pre.data) (hpay : ',' ∉ payload.data) :
    (index env Method.post (some (pre ++ "," ++ payload))).1.head?
        = some (Effect.fsWrite image_path (env.b64 payload))
      ∧ ∀ d, Effect.fsWrite image_path d
            ∈ (index env Method.post (some (pre ++ "," ++ payload))).1
          → d = env.b64 payload := by
  have hdata : (pre ++ "," ++ payload).data = pre.data ++ ',' :: payload.data := by
    rw [String.data_append, String.data_append]
    show pre.data ++ [','] ++ payload.data = pre.data ++ ',' :: payload.data
    rw [List.append_assoc]
    rfl
  have hsplit : splitOnChar ',' (pre ++ "," ++ payload).data
      = pre.data :: payload.data :: [] := by
    rw [hdata, splitOnChar_append ',' pre.data payload.data hpre,
      splitOnChar_of_not_mem ',' payload.data hpay]
  have hs : (pre ++ "," ++ payload) ≠ "" := by
    intro h
    have := (string_eq_empty_iff_data _).mp h
    rw [hdata] at this
    simp at this
  have hred := index_post_split env (pre ++ "," ++ payload) pre.data payload.data []
    hs hsplit
  have hw := afterDecode_write_head env payload.data
  rw [String.mk_data payload] at hw
  rw [hred]
  exact hw

/-- Witness for C7 on a concrete data URL. -/
theorem decode_segment_after_comma_witness :
    (index ⟨fun _ => [1, 2], fun _ => [], fun _ _ => ApiCall.raises⟩ Method.post
        (some ("data:image/jpeg;base64" ++ "," ++ "QUFB"))).1.head?
        = some (Effect.fsWrite image_path
            ((⟨fun _ => [1, 2], fun _ => [], fun _ _ => ApiCall.raises⟩ : Env).b64
              "QUFB"))
      ∧ ∀ d, Effect.fsWrite image_path d
            ∈ (index ⟨fun _ => [1, 2], fun _ => [], fun _ _ => ApiCall.raises⟩
                Method.post (some ("data:image/jpeg;base64" ++ "," ++ "QUFB"))).1
          → d = (⟨fun _ => [1, 2], fun _ => [], fun _ _ => ApiCall.raises⟩ : Env).b64
              "QUFB" :=
  decode_segment_after_comma
    ⟨fun _ => [1, 2], fun _ => [], fun _ _ => ApiCall.raises⟩
    "data:image/jpeg;base64" "QUFB" (by decide) (by decide)

/-- C8: the stored image is removed exactly on the success path — after the
generative call and immediately before the 200 response — while on the
NoTextExtracted 400 path no removal happens, so the stored-image file is
left on disk. -/
theorem cleanup_only_on_success (env : Env) (s : String) (a pd : List Char)
    (rest : List (List Char)) (hs : s ≠ "")
    (hsplit : splitOnChar ',' s.data = a :: pd :: rest) :
    (process_image (env.readtext (env.b64 (String.mk pd))) (7/10) ≠ ""
        → (index env Method.post (some s)).1
            = [Effect.fsWrite image_path (env.b64 (String.mk pd)),
               Effect.geminiCall
                 (system_message
                   ++ process_image (env.readtext (env.b64 (String.mk pd))) (7/10)),
               Effect.fsRemove image_path]
          ∧ (index env Method.post (some s)).2
            = Except.ok ⟨200,
                Body.result
                  (process_image (env.readtext (env.b64 (String.mk pd))) (7/10))
                  (gemini_generate_response env
                    (system_message
                      ++ process_image (env.readtext (env.b64 (String.mk pd))) (7/10))
                    (create_listings_container_model
                      (create_dynamic_listing_model fields)))⟩)
      ∧ (process_image (env.readtext (env.b64 (String.mk pd))) (7/10) = ""
          → Effect.fsRemove image_path ∉ (index env Method.post (some s)).1
            ∧ (index env Method.post (some s)).2
              = Except.ok ⟨400, Body.errorMsg "No text extracted from the image"⟩) := by
  have hred := index_post_split env s a pd rest hs hsplit
  constructor
  · intro hne
    rw [hred]
    constructor
    · simp [afterDecode, hne]
    · simp [afterDecode, hne]
  · intro hempty
    rw [hred]
    constructor
    · simp [afterDecode, hempty]
    · simp [afterDecode, hempty]

/-- Witness for C8 on the NoTextExtracted path: the 400 response is returned
and the stored image is not removed. -/
theorem cleanup_only_on_success_witness :
    (process_image
          ((⟨fun _ => [], fun _ => [], fun _ _ => ApiCall.raises⟩ : Env).readtext
            ((⟨fun _ => [], fun _ => [], fun _ _ => ApiCall.raises⟩ : Env).b64
              (String.mk ['y'])))
          (7/10) ≠ ""
        → (index ⟨fun _ => [], fun _ => [], fun _ _ => ApiCall.raises⟩
              Method.post (some "x,y")).1
            = [Effect.fsWrite image_path
                ((⟨fun _ => [], fun _ => [], fun _ _ => ApiCall.raises⟩ : Env).b64
                  (String.mk ['y'])),
               Effect.geminiCall
                 (system_message
                   ++ process_image
                       ((⟨fun _ => [], fun _ => [],
                           fun _ _ => ApiCall.raises⟩ : Env).readtext
                         ((⟨fun _ => [], fun _ => [],
                             fun _ _ => ApiCall.raises⟩ : Env).b64
                           (String.mk ['y'])))
                       (7/10)),
               Effect.fsRemove image_path]
          ∧ (index ⟨fun _ => [], fun _ => [], fun _ _ => ApiCall.raises⟩
                Method.post (some "x,y")).2
            = Except.ok ⟨200,
                Body.result
                  (process_image
                    ((⟨fun _ => [], fun _ => [],
                        fun _ _ => ApiCall.raises⟩ : Env).readtext
                      ((⟨fun _ => [], fun _ => [],
                          fun _ _ => ApiCall.raises⟩ : Env).b64
                        (String.mk ['y'])))
                    (7/10))
                  (gemini_generate_response
                    ⟨fun _ => [], fun _ => [], fun _ _ => ApiCall.raises⟩
                    (system_message
                      ++ process_image
                          ((⟨fun _ => [], fun _ => [],
                              fun _ _ => ApiCall.raises⟩ : Env).readtext
                            ((⟨fun _ => [], fun _ => [],
                                fun _ _ => ApiCall.raises⟩ : Env).b64
                              (String.mk ['y'])))
                          (7/10))
                    (create_listings_container_model
                      (create_dynamic_listing_model fields)))⟩)
      ∧ (process_image
            ((⟨fun _ => [], fun _ => [], fun _ _ => ApiCall.raises⟩ : Env).readtext
              ((⟨fun _ => [], fun _ => [], fun _ _ => ApiCall.raises⟩ : Env).b64
                (String.mk ['y'])))
            (7/10) = ""
          → Effect.fsRemove image_path
              ∉ (index ⟨fun _ => [], fun _ => [], fun _ _ => ApiCall.raises⟩
                  Method.post (some "x,y")).1
            ∧ (index ⟨fun _ => [], fun _ => [], fun _ _ => ApiCall.raises⟩
                  Method.post (some "x,y")).2
              = Except.ok ⟨400, Body.errorMsg "No text extracted from the image"⟩) :=
  cleanup_only_on_success ⟨fun _ => [], fun _ => [], fun _ _ => ApiCall.raises⟩
    "x,y" ['x'] ['y'] [] (by decide) (by decide)

/-- C10: for a POST whose `image` value is a nonempty string containing no
comma, `data_url.split(',')[1]` raises an uncaught IndexError: no documented
400 body and no 200 response is produced. The decode step is total only on
strings with at least one comma. -/
theorem no_comma_raises_index_error (env : Env) (s : String) (hne : s ≠ "")
    (hnc : ',' ∉ s.data) :
    index env Method.post (some s) = ([], Except.error PyExn.indexError) := by
  simp only [index]
  rw [if_neg hne, splitOnChar_of_not_mem ',' s.data hnc]

/-- Witness for C10 on a concrete comma-free image string. -/
theorem no_comma_raises_index_error_witness :
    index ⟨fun _ => [], fun _ => [], fun _ _ => ApiCall.raises⟩ Method.post
        (some "notadataurl")
      = ([], Except.error PyExn.indexError) :=
  no_comma_raises_index_error ⟨fun _ => [], fun _ => [], fun _ _ => ApiCall.raises⟩
    "notadataurl" (by decide) (by decide)

end PestFinder
